import Mathlib

/-
  Verification development for the pypwrctrl command-line front end
  (src/pypwrctrl/main.py).

  The configuration store is embedded as an association structure:
  a list of sections, each a section name together with a list of
  key/value entries, mirroring the generic key/value-sections library
  the program relies on (insertion order preserved, duplicate sections
  rejected, option assignment overwriting in place).  Registry, Device
  and Plug mirror the in-memory model; operations of the PlugMaster
  class, which is imported from outside this repository, are modelled
  from the specification where noted.
-/

namespace Pypwrctrl

/-! ## Decimal digit strings

The program turns plug indices and ports into decimal strings with `str`
and parses them back with `int`.  We embed the decimal representation with
an explicit fuel recursion so every definition is executable. -/

/-- Numeric value of a decimal digit character. -/
def charVal (c : Char) : Nat := c.toNat - 48

/-- Little-endian digit list of `n` (least significant first), with fuel. -/
def digitsRevFuel : Nat → Nat → List Char
  | 0, _ => []
  | f + 1, n =>
    if n < 10 then [Nat.digitChar n]
    else Nat.digitChar (n % 10) :: digitsRevFuel f (n / 10)

/-- Decimal digit characters of `n`, most significant first: `str(n)`. -/
def natDigits (n : Nat) : List Char := (digitsRevFuel (n + 1) n).reverse

/-- The string `str(n)` for a natural number `n`. -/
def natStr (n : Nat) : String := String.mk (natDigits n)

/-- Value of a little-endian digit character list. -/
def valRev : List Char → Nat
  | [] => 0
  | c :: rest => charVal c + 10 * valRev rest

/-- Value of a big-endian digit character list. -/
def valOf (l : List Char) : Nat := l.foldl (fun a c => 10 * a + charVal c) 0

/-- Python `int(s)` restricted to the plain decimal strings this program
produces and consumes: defined exactly on nonempty all-digit strings. -/
def pyIntDigits (l : List Char) : Option Nat :=
  if l = [] then none
  else if l.all (fun c => c.isDigit) then some (valOf l) else none

/-! ## Data model -/

/-- Tri-state plug status.  The Python code stores `-1` for "never
queried" and a boolean-like value otherwise; the specification models it
as a three-valued enumeration. -/
inductive PState where
  | On
  | Off
  | Unknown
deriving DecidableEq, Repr

/-- One switchable outlet. -/
structure Plug where
  index : Nat
  name : String
  state : PState
deriving DecidableEq, Repr

/-- One network-addressable multi-outlet device. -/
structure Device where
  address : String
  name : String
  plugs : List Plug
deriving DecidableEq, Repr

/-- The registry of one session (the PlugMaster object). -/
structure Master where
  user : String
  password : String
  pin : Nat
  pout : Nat
  devices : List Device
deriving DecidableEq, Repr

/-- Python `PlugMaster(pin, pout, user, password)`: a fresh registry with
no devices, as constructed in `main`. -/
def freshMaster (pin pout : Nat) (user password : String) : Master :=
  { user := user, password := password, pin := pin, pout := pout, devices := [] }

/-! ## Configuration store

A configuration is a list of sections in insertion order; each section is
a name together with its options (key/value entries in insertion order).
This embeds the key/value-sections library the program uses: adding an
already-present section fails with a duplicate-section error, and setting
an option overwrites in place or appends. -/

/-- One configuration section: name and options. -/
abbrev ConfigSection := String × List (String × String)

/-- A configuration: sections in insertion order. -/
abbrev Config := List ConfigSection

/-- Names of the sections of a configuration. -/
def sectionNames (cfg : Config) : List String := cfg.map (fun s => s.1)

/-- Embeds `parser.add_section(name)`: appends an empty section, failing
when a section of that name already exists. -/
def addSection (cfg : Config) (name : String) : Except String Config :=
  if cfg.any (fun s => s.1 == name) then
    .error ("DuplicateSectionError: " ++ name)
  else
    .ok (cfg ++ [(name, [])])

/-- Assignment into an option list: overwrite the entry in place when the
key is present, append otherwise. -/
def setAssoc : List (String × String) → String → String → List (String × String)
  | [], k, v => [(k, v)]
  | (k', v') :: rest, k, v =>
    if k' == k then (k, v) :: rest else (k', v') :: setAssoc rest k v

/-- Embeds `parser.set(sec, k, v)`: assigns an option inside the named
section.  In `save` the section always exists; a missing section leaves
the configuration unchanged here (the library would raise). -/
def setOpt : Config → String → String → String → Config
  | [], _, _, _ => []
  | (n, opts) :: rest, sec, k, v =>
    if n == sec then (n, setAssoc opts k v) :: rest
    else (n, opts) :: setOpt rest sec k v

/-- First value bound to `k` among the options, if any. -/
def lookupOpt (opts : List (String × String)) (k : String) : Option String :=
  (opts.find? (fun kv => kv.1 == k)).map (fun kv => kv.2)

/-- Embeds `config.get(sec, key)` as an optional value: `none` when the
section or the option is missing. -/
def cfgGet (cfg : Config) (sec key : String) : Option String :=
  (cfg.find? (fun s => s.1 == sec)).bind (fun s => lookupOpt s.2 key)

/-! ## General-section defaults (main.py lines 170-178) -/

/-- Embeds the general-section user lookup with fallback admin
(main.py line 172). -/
def generalUser (cfg : Config) : String :=
  (cfgGet cfg "GENERAL" "user").getD "admin"

/-- Embeds the general-section password lookup with fallback anel
(main.py line 173). -/
def generalPassword (cfg : Config) : String :=
  (cfgGet cfg "GENERAL" "password").getD "anel"

/-- Embeds the general-section inbound-port lookup with fallback 75; a
present value that is not numeric raises (main.py line 174). -/
def generalPin (cfg : Config) : Except String Nat :=
  match cfgGet cfg "GENERAL" "pin" with
  | none => .ok 75
  | some v =>
    match pyIntDigits v.data with
    | some n => .ok n
    | none => .error "ValueError: invalid literal for int"

/-- Embeds the general-section outbound-port lookup with fallback 77
(main.py line 175). -/
def generalPout (cfg : Config) : Except String Nat :=
  match cfgGet cfg "GENERAL" "pout" with
  | none => .ok 77
  | some v =>
    match pyIntDigits v.data with
    | some n => .ok n
    | none => .error "ValueError: invalid literal for int"

/-! ## Saving (main.py `save`, lines 105-123) -/

/-- The key `"plug_" + str(index)` written by `save`. -/
def plugKeyStr (i : Nat) : String := "plug_" ++ natStr i

/-- Body of the per-device loop of `save`: add the address section, set
`name`, then set one `plug_<index>` entry per plug in plug order. -/
def saveDeviceStep (cfg : Config) (d : Device) : Except String Config :=
  match addSection cfg d.address with
  | .error e => .error e
  | .ok cfg1 =>
    .ok (d.plugs.foldl (fun c p => setOpt c d.address (plugKeyStr p.index) p.name)
      (setOpt cfg1 d.address "name" d.name))

/-- The per-device loop of `save`, with a raised error aborting it. -/
def saveDevicesFold (cfg : Config) : List Device → Except String Config
  | [] => .ok cfg
  | d :: rest =>
    match saveDeviceStep cfg d with
    | .error e => .error e
    | .ok cfg1 => saveDevicesFold cfg1 rest

/-- Embeds `save`: general section with live credentials and ports, then
one section per device in registry order.  The written configuration replaces
the destination wholesale. -/
def saveConfig (m : Master) : Except String Config :=
  match addSection [] "GENERAL" with
  | .error e => .error e
  | .ok c0 =>
    saveDevicesFold
      (setOpt (setOpt (setOpt (setOpt c0 "GENERAL" "user" m.user)
        "GENERAL" "password" m.password) "GENERAL" "pin" (natStr m.pin))
        "GENERAL" "pout" (natStr m.pout))
      m.devices

/-! ## Loading (main.py `load_devices`, lines 36-59) -/

/-- Classification of one option key by the plug-key check of
`load_devices`: `re.match("plug_\\d+", option)` succeeds exactly when the
key starts with `plug_` followed by at least one digit (the match is not
anchored at the end), and `int(option[5:])` then parses the whole suffix,
raising when the suffix is not a plain number. -/
inductive KeyClass where
  | notPlug
  | badPlug
  | plugIdx (i : Nat)
deriving DecidableEq, Repr

/-- Classify one option key as `load_devices` does. -/
def classifyKey (k : String) : KeyClass :=
  match k.data with
  | 'p' :: 'l' :: 'u' :: 'g' :: '_' :: c :: cs =>
    if c.isDigit then
      match pyIntDigits (c :: cs) with
      | some i => .plugIdx i
      | none => .badPlug
    else .notPlug
  | _ => .notPlug

/-- The plug-extraction loop of `load_devices`: walk the options in
order, skip keys that do not pass the plug-key check, raise on a key that
passes the check but whose suffix is not a number, and append
`(index, value)` otherwise. -/
def loadPlugs : List (String × String) → Except String (List (Nat × String))
  | [] => .ok []
  | (k, v) :: rest =>
    match classifyKey k with
    | .notPlug => loadPlugs rest
    | .badPlug => .error "ValueError: invalid literal for int"
    | .plugIdx i => (loadPlugs rest).map (fun l => (i, v) :: l)

/-- Modelled from the spec: `Registry.create_device` of the PlugMaster
class, which is imported from the `pypwrctrl` package and not part of
the sources of this repository.  It constructs a Device whose plugs are in
Unknown state from the ordered `(index, name)` pairs, appends it to the
registry, and fails with a DuplicateAddress error when a device with the
same address is already registered. -/
def createDevice (m : Master) (address name : String)
    (plugDefs : List (Nat × String)) : Except String Master :=
  if m.devices.any (fun d => d.address == address) then
    .error "DuplicateAddress"
  else
    .ok { m with
          devices := m.devices ++
            [{ address := address, name := name,
               plugs := plugDefs.map (fun p =>
                 { index := p.1, name := p.2, state := PState.Unknown }) }] }

/-- Embeds `load_devices`: walk the sections in order, skipping the general section,
skip (with a diagnostic message) sections without a `name` option, and
create a device from every other section.  Returns the updated registry
together with the diagnostics printed, or the raised error. -/
def loadList (m : Master) : Config → Except String (Master × List String)
  | [] => .ok (m, [])
  | (sec, opts) :: rest =>
    if sec == "GENERAL" then loadList m rest
    else
      match lookupOpt opts "name" with
      | none =>
        (loadList m rest).map (fun r =>
          (r.1, "Device without name in configuration, skipping" :: r.2))
      | some nm =>
        match loadPlugs opts with
        | .error e => .error e
        | .ok plugs =>
          match createDevice m sec nm plugs with
          | .error e => .error e
          | .ok m1 => loadList m1 rest

/-- The registry `main` hands to the command handler when the discover
option is not set (main.py lines 229-238): a fresh master, loaded from
the configuration exactly when the command is not `save`. -/
def noDiscoverRegistry (pin pout : Nat) (user password : String)
    (cfg : Config) (command : String) : Except String Master :=
  if command == "save" then .ok (freshMaster pin pout user password)
  else (loadList (freshMaster pin pout user password) cfg).map (fun r => r.1)

/-! ## Name resolution (spec-modelled) and command handlers -/

/-- Modelled from the spec: the name-matching predicate of the PlugMaster
package (not part of the sources of this repository), specified as
case-insensitive substring comparison. -/
def nameMatches (pattern cand : String) : Bool :=
  (cand.data.map Char.toLower).tails.any (fun t => (pattern.data.map Char.toLower).isPrefixOf t)

/-- Modelled from the spec: `PlugMaster.search_device(pattern)` returns
every device whose name or address matches the pattern. -/
def searchDevice (m : Master) (pat : String) : List Device :=
  m.devices.filter (fun d => nameMatches pat d.name || nameMatches pat d.address)

/-- Modelled from the spec: `Device.search_plug(pattern)` returns the
plugs of this device whose name matches the pattern. -/
def deviceSearchPlug (d : Device) (pat : String) : List Plug :=
  d.plugs.filter (fun p => nameMatches pat p.name)

/-- Modelled from the spec: `PlugMaster.search_plug(pattern)` is the
union over all devices of the per-device plug search.  Every returned
plug is tagged with the address of its owning device, reflecting that distinct
plug objects are never merged even when their fields coincide. -/
def masterSearchPlug (m : Master) (pat : String) : List (String × Plug) :=
  m.devices.flatMap (fun d => (deviceSearchPlug d pat).map (fun p => (d.address, p)))

/-- Network-visible effects a command performs through the protocol
collaborator: `Plug.switch` on a plug of a device, or `Device.reset`. -/
inductive Action where
  | switchPlug (address : String) (index : Nat) (state : Bool)
  | resetDevice (address : String)
deriving DecidableEq, Repr

/-- The resolved plug set of a two-argument on/off invocation
(main.py lines 66-71): devices matching the first argument, then each
own plug search of each matched device on the second argument, union. -/
def twoArgResolve (m : Master) (a0 a1 : String) : List (String × Plug) :=
  (searchDevice m a0).flatMap (fun d =>
    (deviceSearchPlug d a1).map (fun p => (d.address, p)))

/-- Shared tail of `switch` (main.py lines 77-84): error on an empty
resolution, warn on more than one match, then act on every match.
Returns (exit status, printed messages, performed actions); the Python
handler returns `None` on success, which `sys.exit` maps to status 0. -/
def switchCommon (plugs : List (String × Plug)) (state : Bool) :
    Nat × List String × List Action :=
  if plugs.isEmpty then (1, ["No matching plugs found, sorry"], [])
  else
    (0,
     (if 1 < plugs.length then ["Warning: Setting multiple matching plugs"] else []),
     plugs.map (fun ap => Action.switchPlug ap.1 ap.2.index state))

/-- Embeds `switch(master, args, state)` (main.py lines 61-84). -/
def switch (m : Master) (args : List String) (state : Bool) :
    Nat × List String × List Action :=
  match args with
  | [] =>
    (1, ["Not enough arguments. Please add at least a plug name."], [])
  | [a0] => switchCommon (masterSearchPlug m a0) state
  | [a0, a1] => switchCommon (twoArgResolve m a0 a1) state
  | _ =>
    (1, ["Too many arguments. Only plug name and optionally device name expected."], [])

/-- Embeds `reset(master, args)` (main.py lines 86-103). -/
def reset (m : Master) (args : List String) : Nat × List String × List Action :=
  match args with
  | [] =>
    (1, ["Not enough arguments. Please add the device name."], [])
  | [a0] =>
    let devices := searchDevice m a0
    if devices.isEmpty then (1, ["No matching devices found, sorry"], [])
    else
      (0,
       (if 1 < devices.length then ["Warning: Resetting multiple matching devices"] else []),
       devices.map (fun d => Action.resetDevice d.address))
  | _ =>
    (1, ["Too many arguments. Only device name expected."], [])


/-- The `(index, plug_name)` pairs of one device section in the textual
order in which the plug keys appear among the options of the section (the
wording of the amended ordering claim, to be compared with the pairs the
load loop builds). -/
def textualOrderPlugPairs (opts : List (String × String)) : List (Nat × String) :=
  opts.filterMap (fun kv =>
    match classifyKey kv.1 with
    | .plugIdx i => some (i, kv.2)
    | _ => none)

/-- The general section `save` writes for a registry. -/
def generalSectionOf (m : Master) : ConfigSection :=
  ("GENERAL",
   [("user", m.user), ("password", m.password),
    ("pin", natStr m.pin), ("pout", natStr m.pout)])

/-- The section `save` writes for one device: the address as section
name, the `name` entry, then one `plug_<index>` entry per plug in plug
order. -/
def deviceSection (d : Device) : ConfigSection :=
  (d.address, ("name", d.name) :: d.plugs.map (fun p => (plugKeyStr p.index, p.name)))

/-- The device as it comes back out of a fresh load: same address, name
and `(index, name)` pairs, every plug state reset to Unknown. -/
def reloadDevice (d : Device) : Device :=
  ⟨d.address, d.name, d.plugs.map (fun p => ⟨p.index, p.name, PState.Unknown⟩)⟩

/-- Sample registry with two devices exposing a plug of the same name,
used to instantiate the resolution-policy statements. -/
def twoDeskMaster : Master :=
  ⟨"u", "pw", 75, 77,
   [⟨"10.0.0.1", "A", [⟨1, "Desk", PState.Unknown⟩]⟩,
    ⟨"10.0.0.2", "B", [⟨1, "Desk", PState.Unknown⟩]⟩]⟩

/-! ## Theorems -/

/-! ### Decimal digit facts -/

theorem digitChar_isDigit {d : Nat} (h : d < 10) :
    (Nat.digitChar d).isDigit = true := by
  interval_cases d <;> decide

theorem charVal_digitChar {d : Nat} (h : d < 10) :
    charVal (Nat.digitChar d) = d := by
  interval_cases d <;> decide

theorem digitsRevFuel_spec :
    ∀ f n, n < f →
      digitsRevFuel f n ≠ [] ∧
      (∀ c ∈ digitsRevFuel f n, c.isDigit = true) ∧
      valRev (digitsRevFuel f n) = n := by
  intro f
  induction f with
  | zero => intro n hn; omega
  | succ f ih =>
    intro n hn
    by_cases h10 : n < 10
    · refine ⟨by simp [digitsRevFuel, h10], ?_, ?_⟩
      · intro c hc
        simp [digitsRevFuel, h10] at hc
        subst hc
        exact digitChar_isDigit h10
      · simp [digitsRevFuel, h10, valRev, charVal_digitChar h10]
    · have hdiv : n / 10 < f := by
        have h1 : n / 10 < n := Nat.div_lt_self (by omega) (by omega)
        omega
      obtain ⟨hne, hdig, hval⟩ := ih (n / 10) hdiv
      refine ⟨by simp [digitsRevFuel, h10], ?_, ?_⟩
      · intro c hc
        simp [digitsRevFuel, h10] at hc
        rcases hc with hc | hc
        · subst hc; exact digitChar_isDigit (Nat.mod_lt _ (by omega))
        · exact hdig c hc
      · have hm : n % 10 < 10 := Nat.mod_lt _ (by omega)
        simp [digitsRevFuel, h10, valRev, hval, charVal_digitChar hm]
        omega

theorem valOf_append_singleton (xs : List Char) (c : Char) :
    valOf (xs ++ [c]) = 10 * valOf xs + charVal c := by
  simp [valOf, List.foldl_append]

theorem valOf_reverse : ∀ l : List Char, valOf l.reverse = valRev l := by
  intro l
  induction l with
  | nil => rfl
  | cons c rest ih =>
    simp [List.reverse_cons, valOf_append_singleton, valRev, ih]
    omega

/-- Round trip: parsing the decimal representation returns the number. -/
theorem pyIntDigits_natDigits (n : Nat) : pyIntDigits (natDigits n) = some n := by
  obtain ⟨hne, hdig, hval⟩ := digitsRevFuel_spec (n + 1) n (by omega)
  have hne' : natDigits n ≠ [] := by
    simp [natDigits]
    exact hne
  have hall : (natDigits n).all (fun c => c.isDigit) = true := by
    simp only [natDigits, List.all_eq_true]
    intro c hc
    exact hdig c (List.mem_reverse.mp hc)
  have hv : valOf (natDigits n) = n := by
    simp [natDigits, valOf_reverse, hval]
  simp [pyIntDigits, hne', hall, hv]

theorem natDigits_ne_nil (n : Nat) : natDigits n ≠ [] := by
  obtain ⟨hne, -, -⟩ := digitsRevFuel_spec (n + 1) n (by omega)
  simp [natDigits]
  exact hne

theorem natDigits_all_digit (n : Nat) :
    ∀ c ∈ natDigits n, c.isDigit = true := by
  obtain ⟨-, hdig, -⟩ := digitsRevFuel_spec (n + 1) n (by omega)
  intro c hc
  exact hdig c (List.mem_reverse.mp hc)

theorem natDigits_injective : Function.Injective natDigits := by
  intro a b h
  have := pyIntDigits_natDigits a
  rw [h, pyIntDigits_natDigits b] at this
  exact (Option.some.injEq _ _).mp this.symm

/-! ### Claim theorems -/

/-- Claim C2: when the command is `save` and the discover option is not
set, the configured devices are never loaded, so the registry handed to
`save` has no devices and the written configuration holds only the
general section, discarding every previously persisted device section. -/
theorem claim2_save_discards_saved_devices (pin pout : Nat) (u p : String)
    (cfg : Config) :
    noDiscoverRegistry pin pout u p cfg "save" = .ok (freshMaster pin pout u p) ∧
    (freshMaster pin pout u p).devices = [] ∧
    saveConfig (freshMaster pin pout u p) =
      .ok [("GENERAL",
        [("user", u), ("password", p), ("pin", natStr pin), ("pout", natStr pout)])] :=
  ⟨rfl, rfl, rfl⟩

/-- Claim C5 (divergence witness): a device-section key that starts with
`plug_` and a digit but is not entirely `plug_` followed by digits, such
as `plug_1a`, passes the unanchored pattern check and then makes the
integer conversion raise, aborting the whole load; keys that fail the
pattern check, such as arbitrary metadata keys, are ignored and the load
completes. -/
theorem claim5_partial_plug_key_raises :
    loadList (freshMaster 75 77 "admin" "anel")
        [("d1", [("name", "D"), ("plug_1a", "x")])] =
      .error "ValueError: invalid literal for int" ∧
    loadList (freshMaster 75 77 "admin" "anel")
        [("d1", [("name", "D"), ("note", "x")])] =
      .ok ({ user := "admin", password := "anel", pin := 75, pout := 77,
             devices := [{ address := "d1", name := "D", plugs := [] }] }, []) :=
  ⟨rfl, rfl⟩

/-- Claim C6: `on`/`off` with zero or with three or more arguments, and
`reset` with two or more arguments, return status 1 with an error message
and perform no switch or reset action. -/
theorem claim6_arity_gate (m : Master) (st : Bool) (x y z : String)
    (rest : List String) :
    switch m [] st =
      (1, ["Not enough arguments. Please add at least a plug name."], []) ∧
    switch m (x :: y :: z :: rest) st =
      (1, ["Too many arguments. Only plug name and optionally device name expected."], []) ∧
    reset m (x :: y :: rest) =
      (1, ["Too many arguments. Only device name expected."], []) :=
  ⟨rfl, rfl, rfl⟩

/-- Claim C7: for a two-argument on/off invocation the resolved plug set
is exactly the union, over the devices matching the first argument, of
own plug search of each such device on the second argument; a plug of a
device not matched by the first argument is never resolved. -/
theorem claim7_two_arg_resolution (m : Master) (a0 a1 : String) (st : Bool)
    (addr : String) (p : Plug) :
    switch m [a0, a1] st = switchCommon (twoArgResolve m a0 a1) st ∧
    ((addr, p) ∈ twoArgResolve m a0 a1 ↔
      ∃ d ∈ searchDevice m a0, d.address = addr ∧ p ∈ deviceSearchPlug d a1) := by
  refine ⟨rfl, ?_⟩
  simp only [twoArgResolve, List.mem_flatMap, List.mem_map]
  constructor
  · rintro ⟨d, hd, q, hq, hpair⟩
    refine ⟨d, hd, ?_, ?_⟩
    · exact congrArg Prod.fst hpair
    · have := congrArg Prod.snd hpair
      simp at this
      exact this ▸ hq
  · rintro ⟨d, hd, h1, h2⟩
    exact ⟨d, hd, p, h2, by rw [h1]⟩

theorem isEmpty_false_of_ne {α : Type} {l : List α} (h : l ≠ []) :
    l.isEmpty = false := by
  cases l with
  | nil => exact absurd rfl h
  | cons a t => rfl

theorem switchCommon_spec (plugs : List (String × Plug)) (st : Bool)
    (h : plugs ≠ []) :
    (switchCommon plugs st).1 = 0 ∧
    (switchCommon plugs st).2.2 =
      plugs.map (fun ap => Action.switchPlug ap.1 ap.2.index st) ∧
    (1 < plugs.length →
      "Warning: Setting multiple matching plugs" ∈ (switchCommon plugs st).2.1) := by
  have he := isEmpty_false_of_ne h
  refine ⟨by simp [switchCommon, he], by simp [switchCommon, he], ?_⟩
  intro hl
  simp [switchCommon, he, hl]

/-- Claim C3: shared resolution policy of on/off/reset with valid arity.
Zero matches print an error, return status 1 and perform nothing; a
nonempty match set is acted on in full (exactly one match acts on that
entity alone), and more than one match additionally emits a non-fatal
warning. -/
theorem claim3_resolution_policy (m : Master) (a0 a1 : String) (st : Bool) :
    (masterSearchPlug m a0 = [] →
      switch m [a0] st = (1, ["No matching plugs found, sorry"], [])) ∧
    (masterSearchPlug m a0 ≠ [] →
      (switch m [a0] st).1 = 0 ∧
      (switch m [a0] st).2.2 =
        (masterSearchPlug m a0).map (fun ap => Action.switchPlug ap.1 ap.2.index st) ∧
      (1 < (masterSearchPlug m a0).length →
        "Warning: Setting multiple matching plugs" ∈ (switch m [a0] st).2.1)) ∧
    (twoArgResolve m a0 a1 = [] →
      switch m [a0, a1] st = (1, ["No matching plugs found, sorry"], [])) ∧
    (twoArgResolve m a0 a1 ≠ [] →
      (switch m [a0, a1] st).1 = 0 ∧
      (switch m [a0, a1] st).2.2 =
        (twoArgResolve m a0 a1).map (fun ap => Action.switchPlug ap.1 ap.2.index st) ∧
      (1 < (twoArgResolve m a0 a1).length →
        "Warning: Setting multiple matching plugs" ∈ (switch m [a0, a1] st).2.1)) ∧
    (searchDevice m a0 = [] →
      reset m [a0] = (1, ["No matching devices found, sorry"], [])) ∧
    (searchDevice m a0 ≠ [] →
      (reset m [a0]).1 = 0 ∧
      (reset m [a0]).2.2 =
        (searchDevice m a0).map (fun d => Action.resetDevice d.address) ∧
      (1 < (searchDevice m a0).length →
        "Warning: Resetting multiple matching devices" ∈ (reset m [a0]).2.1)) := by
  refine ⟨?_, ?_, ?_, ?_, ?_, ?_⟩
  · intro h
    show switchCommon (masterSearchPlug m a0) st = _
    rw [h]
    rfl
  · intro h
    exact switchCommon_spec _ st h
  · intro h
    show switchCommon (twoArgResolve m a0 a1) st = _
    rw [h]
    rfl
  · intro h
    exact switchCommon_spec _ st h
  · intro h
    show (if (searchDevice m a0).isEmpty then _ else _) = _
    rw [h]
    rfl
  · intro h
    have he := isEmpty_false_of_ne h
    refine ⟨by simp [reset, he], by simp [reset, he], ?_⟩
    intro hl
    simp [reset, he, hl]

/-- Witness for C3 on a registry whose two devices both expose a plug
named `Desk`: the one-argument search matches both, both are switched,
and the multiple-match warning is printed. -/
theorem claim3_resolution_policy_witness :
    (switch twoDeskMaster ["desk"] true).2.2 =
      [Action.switchPlug "10.0.0.1" 1 true, Action.switchPlug "10.0.0.2" 1 true] ∧
    "Warning: Setting multiple matching plugs" ∈ (switch twoDeskMaster ["desk"] true).2.1 := by
  have h := claim3_resolution_policy twoDeskMaster "desk" "x" true
  have hne : masterSearchPlug twoDeskMaster "desk" ≠ [] := by decide
  refine ⟨?_, ?_⟩
  · rw [(h.2.1 hne).2.1]
    decide
  · exact (h.2.1 hne).2.2 (by decide)

/-- Claim C9: a missing configuration file (an empty store) or a general
section without `user`, `password`, `pin` or `pout` resolves to the
built-in defaults `admin`, `anel`, 75 and 77 without error. -/
theorem claim9_general_defaults (cfg : Config) :
    (cfgGet cfg "GENERAL" "user" = none → generalUser cfg = "admin") ∧
    (cfgGet cfg "GENERAL" "password" = none → generalPassword cfg = "anel") ∧
    (cfgGet cfg "GENERAL" "pin" = none → generalPin cfg = .ok 75) ∧
    (cfgGet cfg "GENERAL" "pout" = none → generalPout cfg = .ok 77) ∧
    generalUser [] = "admin" ∧ generalPassword [] = "anel" ∧
    generalPin [] = .ok 75 ∧ generalPout [] = .ok 77 := by
  refine ⟨?_, ?_, ?_, ?_, rfl, rfl, rfl, rfl⟩ <;>
    · intro h
      simp [generalUser, generalPassword, generalPin, generalPout, h]

/-- Witness for C9 at a configuration whose general section only sets
`pin`: the other three values fall back to their defaults. -/
theorem claim9_general_defaults_witness :
    generalUser [("GENERAL", [("pin", "99")])] = "admin" ∧
    generalPassword [("GENERAL", [("pin", "99")])] = "anel" ∧
    generalPout [("GENERAL", [("pin", "99")])] = .ok 77 := by
  have h := claim9_general_defaults [("GENERAL", [("pin", "99")])]
  exact ⟨h.1 rfl, h.2.1 rfl, h.2.2.2.1 rfl⟩

/-- Claim C4 counterexample: a section listing `plug_2` before `plug_1`
yields the pairs in that textual order, not sorted ascending by index. -/
theorem claim4_counterexample :
    loadPlugs [("name", "D"), ("plug_2", "b"), ("plug_1", "a")] =
      .ok [(2, "b"), (1, "a")] ∧
    loadList (freshMaster 75 77 "admin" "anel")
        [("dev", [("name", "D"), ("plug_2", "b"), ("plug_1", "a")])] =
      .ok (⟨"admin", "anel", 75, 77,
             [⟨"dev", "D", [⟨2, "b", PState.Unknown⟩, ⟨1, "a", PState.Unknown⟩]⟩]⟩,
           []) ∧
    ([(2, "b"), (1, "a")] : List (Nat × String)) ≠ [(1, "a"), (2, "b")] :=
  ⟨rfl, rfl, by decide⟩

/-- Claim C4 as amended: the `(index, plug_name)` pairs passed on to
device creation appear in the textual order of the plug keys among the
options of its section; no sorting by numeric index is performed. -/
theorem claim4_textual_order (opts : List (String × String))
    (l : List (Nat × String)) (h : loadPlugs opts = .ok l) :
    l = textualOrderPlugPairs opts := by
  induction opts generalizing l with
  | nil =>
    simp only [loadPlugs] at h
    cases h
    rfl
  | cons kv rest ih =>
    obtain ⟨k, v⟩ := kv
    simp only [loadPlugs] at h
    cases hc : classifyKey k with
    | notPlug =>
      rw [hc] at h
      have := ih l h
      simpa [textualOrderPlugPairs, hc] using this
    | badPlug =>
      rw [hc] at h
      cases h
    | plugIdx i =>
      rw [hc] at h
      cases hrest : loadPlugs rest with
      | error e => rw [hrest] at h; cases h
      | ok l0 =>
        rw [hrest] at h
        have hl : l = (i, v) :: l0 := by
          cases h
          rfl
        subst hl
        have := ih l0 hrest
        simpa [textualOrderPlugPairs, hc] using this

/-- Witness for the amended C4 at a section mixing plug keys with other
keys: the pairs come out in file order. -/
theorem claim4_textual_order_witness :
    ([(2, "b"), (1, "a")] : List (Nat × String)) =
      textualOrderPlugPairs [("plug_2", "b"), ("note", "y"), ("plug_1", "a")] :=
  claim4_textual_order [("plug_2", "b"), ("note", "y"), ("plug_1", "a")]
    [(2, "b"), (1, "a")] rfl

theorem map_fst_prepend (r : Except String (Master × List String)) (msg : String) :
    (r.map (fun x => (x.1, msg :: x.2))).map Prod.fst = r.map Prod.fst := by
  cases r <;> rfl

theorem load_nameless_fst (sec : String) (opts : List (String × String))
    (hg : sec ≠ "GENERAL") (hn : lookupOpt opts "name" = none) :
    ∀ (pre : Config) (m : Master) (post : Config),
      (loadList m (pre ++ (sec, opts) :: post)).map Prod.fst =
        (loadList m (pre ++ post)).map Prod.fst := by
  intro pre
  induction pre with
  | nil =>
    intro m post
    have hgb : (sec == "GENERAL") = false := by simp [hg]
    simp only [List.nil_append, loadList, hgb, hn]
    simp only [Bool.false_eq_true, if_false]
    exact map_fst_prepend _ _
  | cons s0 pre ih =>
    intro m post
    obtain ⟨n0, o0⟩ := s0
    by_cases hgen : (n0 == "GENERAL") = true
    · simp only [List.cons_append, loadList, hgen, if_true]
      exact ih m post
    · have hgb : (n0 == "GENERAL") = false := by
        revert hgen
        cases n0 == "GENERAL" <;> simp
      cases hname : lookupOpt o0 "name" with
      | none =>
        simp only [List.cons_append, loadList, hgb, Bool.false_eq_true, if_false,
          hname, List.append_eq]
        rw [map_fst_prepend, map_fst_prepend]
        exact ih m post
      | some nm =>
        cases hp : loadPlugs o0 with
        | error e =>
          simp only [List.cons_append, loadList, hgb, Bool.false_eq_true, if_false,
            hname, hp]
        | ok plugs =>
          cases hc : createDevice m n0 nm plugs with
          | error e =>
            simp only [List.cons_append, loadList, hgb, Bool.false_eq_true, if_false,
              hname, hp, hc]
          | ok m1 =>
            simp only [List.cons_append, loadList, hgb, Bool.false_eq_true, if_false,
              hname, hp, hc, List.append_eq]
            exact ih m1 post

theorem load_nameless_diag (sec : String) (opts : List (String × String))
    (hg : sec ≠ "GENERAL") (hn : lookupOpt opts "name" = none) :
    ∀ (pre : Config) (m : Master) (post : Config) r,
      loadList m (pre ++ (sec, opts) :: post) = .ok r →
      "Device without name in configuration, skipping" ∈ r.2 := by
  intro pre
  induction pre with
  | nil =>
    intro m post r h
    have hgb : (sec == "GENERAL") = false := by simp [hg]
    simp only [List.nil_append, loadList, hgb, hn, Bool.false_eq_true, if_false] at h
    cases hrec : loadList m post with
    | error e => rw [hrec] at h; cases h
    | ok r0 =>
      rw [hrec] at h
      simp only [Except.map] at h
      cases h
      exact List.mem_cons_self _ _
  | cons s0 pre ih =>
    intro m post r h
    obtain ⟨n0, o0⟩ := s0
    by_cases hgen : (n0 == "GENERAL") = true
    · simp only [List.cons_append, loadList, hgen, if_true, List.append_eq] at h
      exact ih m post r h
    · have hgb : (n0 == "GENERAL") = false := by
        revert hgen
        cases n0 == "GENERAL" <;> simp
      cases hname : lookupOpt o0 "name" with
      | none =>
        simp only [List.cons_append, loadList, hgb, Bool.false_eq_true, if_false,
          hname, List.append_eq] at h
        cases hrec : loadList m (pre ++ (sec, opts) :: post) with
        | error e => rw [hrec] at h; cases h
        | ok r0 =>
          rw [hrec] at h
          simp only [Except.map] at h
          cases h
          exact List.mem_cons_self _ _
      | some nm =>
        cases hp : loadPlugs o0 with
        | error e =>
          simp only [List.cons_append, loadList, hgb, Bool.false_eq_true, if_false,
            hname, hp] at h
          cases h
        | ok plugs =>
          cases hc : createDevice m n0 nm plugs with
          | error e =>
            simp only [List.cons_append, loadList, hgb, Bool.false_eq_true, if_false,
              hname, hp, hc] at h
            cases h
          | ok m1 =>
            simp only [List.cons_append, loadList, hgb, Bool.false_eq_true, if_false,
              hname, hp, hc, List.append_eq] at h
            exact ih m1 post r h

/-- Claim C8: a non-general section without a `name` option is skipped
(no device is created from it and the load result equals the load of the
remaining sections) while a non-fatal diagnostic is recorded and the
remaining sections are still processed. -/
theorem claim8_nameless_section_skipped (m : Master) (pre post : Config)
    (sec : String) (opts : List (String × String))
    (hg : sec ≠ "GENERAL") (hn : lookupOpt opts "name" = none) :
    (loadList m (pre ++ (sec, opts) :: post)).map Prod.fst =
      (loadList m (pre ++ post)).map Prod.fst ∧
    ∀ r, loadList m (pre ++ (sec, opts) :: post) = .ok r →
      "Device without name in configuration, skipping" ∈ r.2 :=
  ⟨load_nameless_fst sec opts hg hn pre m post,
   fun r h => load_nameless_diag sec opts hg hn pre m post r h⟩

/-- Witness for C8: dropping a concrete nameless section from a concrete
configuration leaves the loaded registry unchanged. -/
theorem claim8_nameless_section_skipped_witness :
    (loadList (freshMaster 75 77 "admin" "anel")
        [("bad", [("x", "y")]), ("d1", [("name", "N")])]).map Prod.fst =
      (loadList (freshMaster 75 77 "admin" "anel")
        [("d1", [("name", "N")])]).map Prod.fst ∧
    "Device without name in configuration, skipping" ∈
      ((⟨"admin", "anel", 75, 77, [⟨"d1", "N", []⟩]⟩,
        ["Device without name in configuration, skipping"]) : Master × List String).2 := by
  have h := claim8_nameless_section_skipped (freshMaster 75 77 "admin" "anel")
    [] [("d1", [("name", "N")])] "bad" [("x", "y")] (by decide) rfl
  exact ⟨h.1, h.2 _ rfl⟩

theorem createDevice_ok {m : Master} {addr nm : String}
    {plugDefs : List (Nat × String)} {m1 : Master}
    (h : createDevice m addr nm plugDefs = .ok m1) :
    m1 = { m with devices := m.devices ++
      [⟨addr, nm, plugDefs.map (fun p => ⟨p.1, p.2, PState.Unknown⟩)⟩] } := by
  unfold createDevice at h
  split at h
  · cases h
  · cases h
    rfl

theorem loadList_address_origin (cfg : Config) :
    ∀ (m : Master) r, loadList m cfg = .ok r →
      ∀ d ∈ r.1.devices, d ∈ m.devices ∨ d.address ≠ "GENERAL" := by
  induction cfg with
  | nil =>
    intro m r h d hd
    cases h
    exact .inl hd
  | cons s rest ih =>
    intro m r h d hd
    obtain ⟨sec, opts⟩ := s
    by_cases hgen : (sec == "GENERAL") = true
    · simp only [loadList, hgen, if_true] at h
      exact ih m r h d hd
    · have hgb : (sec == "GENERAL") = false := by
        revert hgen
        cases sec == "GENERAL" <;> simp
      have hsec : sec ≠ "GENERAL" := by
        intro he
        rw [he] at hgb
        simp at hgb
      cases hname : lookupOpt opts "name" with
      | none =>
        simp only [loadList, hgb, Bool.false_eq_true, if_false, hname] at h
        cases hrec : loadList m rest with
        | error e => rw [hrec] at h; cases h
        | ok r0 =>
          rw [hrec] at h
          simp only [Except.map] at h
          cases h
          exact ih m r0 hrec d hd
      | some nm =>
        cases hp : loadPlugs opts with
        | error e =>
          simp only [loadList, hgb, Bool.false_eq_true, if_false, hname, hp] at h
          cases h
        | ok plugs =>
          cases hc : createDevice m sec nm plugs with
          | error e =>
            simp only [loadList, hgb, Bool.false_eq_true, if_false, hname, hp, hc] at h
            cases h
          | ok m1 =>
            simp only [loadList, hgb, Bool.false_eq_true, if_false, hname, hp, hc] at h
            rcases ih m1 r h d hd with hmem | hne
            · rw [createDevice_ok hc] at hmem
              rcases List.mem_append.mp hmem with h1 | h2
              · exact .inl h1
              · right
                rw [List.mem_singleton.mp h2]
                exact hsec
            · exact .inr hne

theorem sectionNames_setOpt (cfg : Config) (sec k v : String) :
    sectionNames (setOpt cfg sec k v) = sectionNames cfg := by
  induction cfg with
  | nil => rfl
  | cons s rest ih =>
    obtain ⟨n, opts⟩ := s
    by_cases h : (n == sec) = true
    · simp only [setOpt, h, if_true, sectionNames, List.map_cons]
    · have hb : (n == sec) = false := by
        revert h
        cases n == sec <;> simp
      simp only [setOpt, hb, Bool.false_eq_true, if_false, sectionNames, List.map_cons]
      rw [show (setOpt rest sec k v).map (fun s => s.1) = sectionNames (setOpt rest sec k v) from rfl, ih]
      rfl

theorem sectionNames_foldl_setOpt (sec : String) (f g : Plug → String) :
    ∀ (plugs : List Plug) (cfg : Config),
      sectionNames (plugs.foldl (fun c p => setOpt c sec (f p) (g p)) cfg) =
        sectionNames cfg := by
  intro plugs
  induction plugs with
  | nil => intro cfg; rfl
  | cons p ps ih =>
    intro cfg
    rw [List.foldl_cons, ih, sectionNames_setOpt]

theorem addSection_ok {cfg : Config} {n : String} {cfg1 : Config}
    (h : addSection cfg n = .ok cfg1) : cfg1 = cfg ++ [(n, [])] := by
  unfold addSection at h
  split at h
  · cases h
  · cases h
    rfl

theorem addSection_mem_fail {cfg : Config} {n : String}
    (h : n ∈ sectionNames cfg) :
    addSection cfg n = .error ("DuplicateSectionError: " ++ n) := by
  have hany : cfg.any (fun s => s.1 == n) = true := by
    rcases List.mem_map.mp h with ⟨s, hs, he⟩
    exact List.any_eq_true.mpr ⟨s, hs, by simp [he]⟩
  unfold addSection
  rw [hany]
  rfl

theorem saveDeviceStep_ok_names {cfg : Config} {d : Device} {cfg1 : Config}
    (h : saveDeviceStep cfg d = .ok cfg1) :
    sectionNames cfg1 = sectionNames cfg ++ [d.address] := by
  unfold saveDeviceStep at h
  cases ha : addSection cfg d.address with
  | error e => rw [ha] at h; cases h
  | ok c1 =>
    rw [ha] at h
    cases h
    rw [addSection_ok ha, sectionNames_foldl_setOpt d.address
      (fun p => plugKeyStr p.index) (fun p => p.name), sectionNames_setOpt]
    simp [sectionNames]

theorem saveDevicesFold_general_fail :
    ∀ (devs : List Device) (cfg : Config),
      "GENERAL" ∈ sectionNames cfg →
      (∃ d ∈ devs, d.address = "GENERAL") →
      ∀ out, saveDevicesFold cfg devs ≠ .ok out := by
  intro devs
  induction devs with
  | nil =>
    rintro cfg hg ⟨d, hd, -⟩ out
    cases hd
  | cons d rest ih =>
    rintro cfg hg ⟨d0, hd0, haddr⟩ out h
    by_cases hda : d.address = "GENERAL"
    · have hfail := @addSection_mem_fail cfg d.address (hda ▸ hg)
      unfold saveDevicesFold saveDeviceStep at h
      rw [hfail] at h
      cases h
    · have hd0r : d0 ∈ rest := by
        rcases List.mem_cons.mp hd0 with he | hr
        · exact absurd (he ▸ haddr) hda
        · exact hr
      unfold saveDevicesFold at h
      cases hs : saveDeviceStep cfg d with
      | error e => rw [hs] at h; cases h
      | ok cfg1 =>
        rw [hs] at h
        have hg1 : "GENERAL" ∈ sectionNames cfg1 := by
          rw [saveDeviceStep_ok_names hs]
          exact List.mem_append_left _ hg
        exact ih cfg1 hg1 ⟨d0, hd0r, haddr⟩ out h

theorem saveConfig_general_device_fails (m : Master)
    (hex : ∃ d ∈ m.devices, d.address = "GENERAL") :
    ∀ cfg, saveConfig m ≠ .ok cfg := by
  intro cfg h
  have hred : saveConfig m = saveDevicesFold
      (setOpt (setOpt (setOpt (setOpt [("GENERAL", [])] "GENERAL" "user" m.user)
        "GENERAL" "password" m.password) "GENERAL" "pin" (natStr m.pin))
        "GENERAL" "pout" (natStr m.pout)) m.devices := rfl
  rw [hred] at h
  have hg : "GENERAL" ∈ sectionNames
      (setOpt (setOpt (setOpt (setOpt [("GENERAL", [])] "GENERAL" "user" m.user)
        "GENERAL" "password" m.password) "GENERAL" "pin" (natStr m.pin))
        "GENERAL" "pout" (natStr m.pout)) := by
    simp only [sectionNames_setOpt]
    simp [sectionNames]
  exact saveDevicesFold_general_fail m.devices _ hg hex cfg h

/-- Claim C10: loading never creates a device whose address is the
reserved section name `GENERAL`, and a registry containing a device with
that address cannot be saved at all — `save` fails with a
duplicate-section error instead of writing a configuration, so the
round-trip contract can only hold for registries without it. -/
theorem claim10_general_reserved (pin pout : Nat) (u p : String) :
    (∀ (cfg : Config) r, loadList (freshMaster pin pout u p) cfg = .ok r →
      ∀ d ∈ r.1.devices, d.address ≠ "GENERAL") ∧
    (∀ m : Master, (∃ d ∈ m.devices, d.address = "GENERAL") →
      ∀ cfg, saveConfig m ≠ .ok cfg) := by
  constructor
  · intro cfg r h d hd
    rcases loadList_address_origin cfg (freshMaster pin pout u p) r h d hd with hmem | hne
    · cases hmem
    · exact hne
  · intro m hex cfg
    exact saveConfig_general_device_fails m hex cfg

/-- Counterexample to C10 as stated: for a registry whose only device has
address `GENERAL`, `save` does not emit that address as a second section
with the reserved name — it raises a duplicate-section error and writes
nothing. -/
theorem claim10_counterexample :
    saveConfig ⟨"u", "p", 75, 77, [⟨"GENERAL", "X", []⟩]⟩ =
      .error "DuplicateSectionError: GENERAL" := rfl

/-- Witness for C10 at concrete inputs: saving a registry holding a
`GENERAL`-addressed device yields no configuration, and a concrete load
produces only non-reserved addresses. -/
theorem claim10_general_reserved_witness :
    saveConfig ⟨"u", "p", 75, 77, [⟨"GENERAL", "X", []⟩]⟩ ≠ .ok [] ∧
    (⟨"d1", "N", []⟩ : Device).address ≠ "GENERAL" := by
  have h := claim10_general_reserved 75 77 "admin" "anel"
  constructor
  · exact h.2 ⟨"u", "p", 75, 77, [⟨"GENERAL", "X", []⟩]⟩
      ⟨⟨"GENERAL", "X", []⟩, by simp, rfl⟩ []
  · exact h.1 [("d1", [("name", "N")])]
      (⟨"admin", "anel", 75, 77, [⟨"d1", "N", []⟩]⟩, []) rfl
      ⟨"d1", "N", []⟩ (by simp)

/-! ### Save-side shape lemmas for the round trip -/

theorem setAssoc_fresh (opts : List (String × String)) (k v : String)
    (h : k ∉ opts.map (fun kv => kv.1)) : setAssoc opts k v = opts ++ [(k, v)] := by
  induction opts with
  | nil => rfl
  | cons kv rest ih =>
    obtain ⟨k0, v0⟩ := kv
    have hk : k0 ≠ k := by
      intro he
      exact h (by simp [he])
    have hkb : (k0 == k) = false := by simp [hk]
    have h' : k ∉ rest.map (fun kv => kv.1) := by
      intro hm
      exact h (List.mem_cons_of_mem _ hm)
    simp only [setAssoc, hkb, Bool.false_eq_true, if_false, List.cons_append]
    rw [ih h']

theorem setOpt_append_last (cfg0 : Config) (sec : String)
    (opts : List (String × String)) (k v : String)
    (h : sec ∉ sectionNames cfg0) :
    setOpt (cfg0 ++ [(sec, opts)]) sec k v = cfg0 ++ [(sec, setAssoc opts k v)] := by
  induction cfg0 with
  | nil => simp [setOpt]
  | cons s rest ih =>
    obtain ⟨n, o⟩ := s
    have hn : n ≠ sec := by
      intro he
      exact h (by simp [sectionNames, he])
    have hnb : (n == sec) = false := by simp [hn]
    have h' : sec ∉ sectionNames rest := by
      intro hm
      exact h (List.mem_cons_of_mem _ hm)
    simp only [List.cons_append, setOpt, hnb, Bool.false_eq_true, if_false,
      List.append_eq]
    rw [ih h']

theorem foldl_setOpt_append_last (sec : String) (cfg0 : Config)
    (h : sec ∉ sectionNames cfg0) :
    ∀ (plugs : List Plug) (opts : List (String × String)),
      plugs.foldl (fun c p => setOpt c sec (plugKeyStr p.index) p.name)
          (cfg0 ++ [(sec, opts)]) =
        cfg0 ++ [(sec, plugs.foldl (fun o p => setAssoc o (plugKeyStr p.index) p.name) opts)] := by
  intro plugs
  induction plugs with
  | nil => intro opts; rfl
  | cons p ps ih =>
    intro opts
    rw [List.foldl_cons, setOpt_append_last cfg0 sec opts _ _ h, ih, List.foldl_cons]

theorem foldl_setAssoc_fresh :
    ∀ (plugs : List Plug) (opts : List (String × String)),
      (∀ p ∈ plugs, plugKeyStr p.index ∉ opts.map (fun kv => kv.1)) →
      (plugs.map (fun p => plugKeyStr p.index)).Nodup →
      plugs.foldl (fun o p => setAssoc o (plugKeyStr p.index) p.name) opts =
        opts ++ plugs.map (fun p => (plugKeyStr p.index, p.name)) := by
  intro plugs
  induction plugs with
  | nil => intro opts _ _; simp
  | cons p ps ih =>
    intro opts hfresh hnd
    have hhead : plugKeyStr p.index ∉ ps.map (fun q => plugKeyStr q.index) :=
      (List.nodup_cons.mp hnd).1
    have hnd' : (ps.map (fun q => plugKeyStr q.index)).Nodup :=
      (List.nodup_cons.mp hnd).2
    have hfresh' : ∀ q ∈ ps,
        plugKeyStr q.index ∉ (opts ++ [(plugKeyStr p.index, p.name)]).map (fun kv => kv.1) := by
      intro q hq hm
      rw [List.map_append] at hm
      rcases List.mem_append.mp hm with h1 | h2
      · exact hfresh q (List.mem_cons_of_mem _ hq) h1
      · have he : plugKeyStr q.index = plugKeyStr p.index := by simpa using h2
        have hm2 : plugKeyStr q.index ∈ ps.map (fun r => plugKeyStr r.index) :=
          List.mem_map_of_mem _ hq
        rw [he] at hm2
        exact hhead hm2
    rw [List.foldl_cons, setAssoc_fresh opts _ _ (hfresh p (List.mem_cons_self _ _)),
      ih (opts ++ [(plugKeyStr p.index, p.name)]) hfresh' hnd']
    simp

theorem plugKeyStr_data (i : Nat) :
    (plugKeyStr i).data = 'p' :: 'l' :: 'u' :: 'g' :: '_' :: natDigits i := rfl

theorem plugKeyStr_ne_name (i : Nat) : plugKeyStr i ≠ "name" := by
  intro h
  have h2 : 'p' :: 'l' :: 'u' :: 'g' :: '_' :: natDigits i = "name".data := by
    rw [← plugKeyStr_data, h]
  simp at h2

theorem plugKeyStr_injective : Function.Injective plugKeyStr := by
  intro a b h
  have h2 : 'p' :: 'l' :: 'u' :: 'g' :: '_' :: natDigits a =
      'p' :: 'l' :: 'u' :: 'g' :: '_' :: natDigits b := by
    rw [← plugKeyStr_data, ← plugKeyStr_data, h]
  simp only [List.cons.injEq, true_and] at h2
  exact natDigits_injective h2

theorem addSection_not_mem_ok {cfg : Config} {n : String}
    (h : n ∉ sectionNames cfg) :
    addSection cfg n = .ok (cfg ++ [(n, [])]) := by
  have hany : cfg.any (fun s => s.1 == n) = false := by
    cases hx : cfg.any (fun s => s.1 == n)
    · rfl
    · exfalso
      rcases List.any_eq_true.mp hx with ⟨s, hs, hb⟩
      have he : s.1 = n := by simpa using hb
      exact h (he ▸ List.mem_map_of_mem _ hs)
  unfold addSection
  rw [hany]
  rfl

theorem saveDeviceStep_shape (cfg0 : Config) (d : Device)
    (hmem : d.address ∉ sectionNames cfg0)
    (hidx : (d.plugs.map (fun p => p.index)).Nodup) :
    saveDeviceStep cfg0 d = .ok (cfg0 ++ [deviceSection d]) := by
  have hkeynd : (d.plugs.map (fun p => plugKeyStr p.index)).Nodup := by
    have h1 : ((d.plugs.map (fun p => p.index)).map plugKeyStr).Nodup :=
      hidx.map plugKeyStr_injective
    rw [List.map_map] at h1
    exact h1
  have hkeyfresh : ∀ p ∈ d.plugs,
      plugKeyStr p.index ∉ ([("name", d.name)] : List (String × String)).map (fun kv => kv.1) := by
    intro p _ hm
    exact plugKeyStr_ne_name p.index (by simpa using hm)
  unfold saveDeviceStep
  rw [addSection_not_mem_ok hmem]
  show Except.ok (d.plugs.foldl (fun c p => setOpt c d.address (plugKeyStr p.index) p.name)
      (setOpt (cfg0 ++ [(d.address, [])]) d.address "name" d.name)) =
    Except.ok (cfg0 ++ [deviceSection d])
  rw [setOpt_append_last cfg0 d.address [] "name" d.name hmem]
  simp only [setAssoc]
  rw [foldl_setOpt_append_last d.address cfg0 hmem d.plugs [("name", d.name)],
    foldl_setAssoc_fresh d.plugs [("name", d.name)] hkeyfresh hkeynd]
  rfl

theorem saveDevicesFold_shape :
    ∀ (devs : List Device) (cfg : Config),
      (∀ d ∈ devs, d.address ∉ sectionNames cfg) →
      (devs.map (fun d => d.address)).Nodup →
      (∀ d ∈ devs, (d.plugs.map (fun p => p.index)).Nodup) →
      saveDevicesFold cfg devs = .ok (cfg ++ devs.map deviceSection) := by
  intro devs
  induction devs with
  | nil => intro cfg _ _ _; simp [saveDevicesFold]
  | cons d rest ih =>
    intro cfg hmem hnd hidx
    have hstep := saveDeviceStep_shape cfg d (hmem d (List.mem_cons_self _ _))
      (hidx d (List.mem_cons_self _ _))
    unfold saveDevicesFold
    rw [hstep]
    have hmem' : ∀ d0 ∈ rest, d0.address ∉ sectionNames (cfg ++ [deviceSection d]) := by
      intro d0 hd0 hm
      have : sectionNames (cfg ++ [deviceSection d]) =
          sectionNames cfg ++ [d.address] := by
        simp [sectionNames, deviceSection]
      rw [this] at hm
      rcases List.mem_append.mp hm with h1 | h2
      · exact hmem d0 (List.mem_cons_of_mem _ hd0) h1
      · have he : d0.address = d.address := by simpa using h2
        have hm2 : d0.address ∈ rest.map (fun r => r.address) :=
          List.mem_map_of_mem _ hd0
        rw [he] at hm2
        exact (List.nodup_cons.mp hnd).1 hm2
    show saveDevicesFold (cfg ++ [deviceSection d]) rest = _
    rw [ih (cfg ++ [deviceSection d]) hmem' (List.nodup_cons.mp hnd).2
      (fun d0 hd0 => hidx d0 (List.mem_cons_of_mem _ hd0))]
    simp

theorem saveConfig_shape (m : Master)
    (ha : (m.devices.map (fun d => d.address)).Nodup)
    (hg : ∀ d ∈ m.devices, d.address ≠ "GENERAL")
    (hi : ∀ d ∈ m.devices, (d.plugs.map (fun p => p.index)).Nodup) :
    saveConfig m = .ok (generalSectionOf m :: m.devices.map deviceSection) := by
  have hred : saveConfig m = saveDevicesFold [generalSectionOf m] m.devices := rfl
  rw [hred, saveDevicesFold_shape m.devices [generalSectionOf m] ?_ ha hi]
  · rfl
  · intro d hd hm
    have : d.address = "GENERAL" := by simpa [sectionNames, generalSectionOf] using hm
    exact hg d hd this

/-! ### Load-side shape lemmas for the round trip -/

theorem classifyKey_plugKeyStr (i : Nat) : classifyKey (plugKeyStr i) = .plugIdx i := by
  unfold classifyKey
  rw [plugKeyStr_data]
  obtain ⟨c, cs, hcons, hdig⟩ : ∃ c cs, natDigits i = c :: cs ∧ c.isDigit = true := by
    cases hnd : natDigits i with
    | nil => exact absurd hnd (natDigits_ne_nil i)
    | cons c cs =>
      exact ⟨c, cs, rfl, natDigits_all_digit i c (by rw [hnd]; exact List.mem_cons_self _ _)⟩
  rw [hcons]
  simp only [hdig, if_true]
  rw [← hcons, pyIntDigits_natDigits]

theorem loadPlugs_plug_entries :
    ∀ (plugs : List Plug),
      loadPlugs (plugs.map (fun p => (plugKeyStr p.index, p.name))) =
        .ok (plugs.map (fun p => (p.index, p.name))) := by
  intro plugs
  induction plugs with
  | nil => rfl
  | cons p ps ih =>
    simp only [List.map_cons, loadPlugs, classifyKey_plugKeyStr, ih, Except.map]

theorem loadPlugs_device_section (dn : String) (plugs : List Plug) :
    loadPlugs (("name", dn) :: plugs.map (fun p => (plugKeyStr p.index, p.name))) =
      .ok (plugs.map (fun p => (p.index, p.name))) := by
  have hname : classifyKey "name" = KeyClass.notPlug := rfl
  simp only [loadPlugs, hname, loadPlugs_plug_entries]

theorem loadList_device_sections :
    ∀ (devs : List Device) (m : Master),
      (∀ d ∈ devs, d.address ∉ m.devices.map (fun x => x.address)) →
      (∀ d ∈ devs, d.address ≠ "GENERAL") →
      (devs.map (fun d => d.address)).Nodup →
      loadList m (devs.map deviceSection) =
        .ok ({ m with devices := m.devices ++ devs.map reloadDevice }, []) := by
  intro devs
  induction devs with
  | nil =>
    intro m _ _ _
    show Except.ok (m, []) = _
    simp
  | cons d rest ih =>
    intro m hmem hg hnd
    have hgb : (d.address == "GENERAL") = false := by
      simp [hg d (List.mem_cons_self _ _)]
    have hany : m.devices.any (fun x => x.address == d.address) = false := by
      cases hx : m.devices.any (fun x => x.address == d.address)
      · rfl
      · exfalso
        rcases List.any_eq_true.mp hx with ⟨x, hxmem, hb⟩
        have he : x.address = d.address := by simpa using hb
        have hm2 : x.address ∈ m.devices.map (fun y => y.address) :=
          List.mem_map_of_mem _ hxmem
        rw [he] at hm2
        exact hmem d (List.mem_cons_self _ _) hm2
    have hcd : createDevice m d.address d.name (d.plugs.map (fun p => (p.index, p.name))) =
        .ok { m with devices := m.devices ++ [reloadDevice d] } := by
      unfold createDevice
      rw [hany]
      simp only [Bool.false_eq_true, if_false]
      have hmap : (d.plugs.map (fun p => (p.index, p.name))).map
          (fun p => (⟨p.1, p.2, PState.Unknown⟩ : Plug)) =
          d.plugs.map (fun p => (⟨p.index, p.name, PState.Unknown⟩ : Plug)) := by
        rw [List.map_map]
        rfl
      rw [hmap]
      rfl
    have hlook : lookupOpt
        (("name", d.name) :: d.plugs.map (fun p => (plugKeyStr p.index, p.name)))
        "name" = some d.name := rfl
    have hlp := loadPlugs_device_section d.name d.plugs
    simp only [List.map_cons, deviceSection, loadList, hgb, Bool.false_eq_true,
      if_false, hlook, hlp, hcd]
    rw [ih { m with devices := m.devices ++ [reloadDevice d] } ?_
      (fun x hx => hg x (List.mem_cons_of_mem _ hx)) (List.nodup_cons.mp hnd).2]
    · simp [List.append_assoc]
    · intro x hx hm
      rw [List.map_append] at hm
      rcases List.mem_append.mp hm with h1 | h2
      · exact hmem x (List.mem_cons_of_mem _ hx) h1
      · have he : x.address = d.address := by simpa [reloadDevice] using h2
        have hm2 : x.address ∈ rest.map (fun y => y.address) :=
          List.mem_map_of_mem _ hx
        rw [he] at hm2
        exact (List.nodup_cons.mp hnd).1 hm2

theorem reload_tuples (devs : List Device) :
    (devs.map reloadDevice).map
      (fun d => (d.address, d.name, d.plugs.map (fun p => (p.index, p.name)))) =
    devs.map (fun d => (d.address, d.name, d.plugs.map (fun p => (p.index, p.name)))) := by
  induction devs with
  | nil => rfl
  | cons d rest ih =>
    have hhead : ((reloadDevice d).address, (reloadDevice d).name,
        (reloadDevice d).plugs.map (fun p => (p.index, p.name))) =
        (d.address, d.name, d.plugs.map (fun p => (p.index, p.name))) := by
      show (d.address, d.name,
        (d.plugs.map (fun p => (⟨p.index, p.name, PState.Unknown⟩ : Plug))).map
          (fun p => (p.index, p.name))) = _
      rw [List.map_map]
      rfl
    rw [List.map_cons, List.map_cons, List.map_cons, hhead, ih]

/-- Claim C1 as amended: for a registry with unique device addresses,
unique per-device plug indices, and no device carrying the reserved
address `GENERAL`, saving and reloading reproduces exactly the
`(address, name, [(index, plug_name), ...])` data of every device and the
general user/password/pin/pout values, with every plug state reset to
Unknown. -/
theorem claim1_round_trip_amended (m : Master)
    (ha : (m.devices.map (fun d => d.address)).Nodup)
    (hg : ∀ d ∈ m.devices, d.address ≠ "GENERAL")
    (hi : ∀ d ∈ m.devices, (d.plugs.map (fun p => p.index)).Nodup) :
    ∃ cfg, saveConfig m = .ok cfg ∧
      loadList (freshMaster m.pin m.pout m.user m.password) cfg =
        .ok ({ user := m.user, password := m.password, pin := m.pin, pout := m.pout,
               devices := m.devices.map reloadDevice }, []) ∧
      (m.devices.map reloadDevice).map
          (fun d => (d.address, d.name, d.plugs.map (fun p => (p.index, p.name)))) =
        m.devices.map
          (fun d => (d.address, d.name, d.plugs.map (fun p => (p.index, p.name)))) ∧
      (∀ d ∈ m.devices.map reloadDevice, ∀ p ∈ d.plugs, p.state = PState.Unknown) ∧
      generalUser cfg = m.user ∧ generalPassword cfg = m.password ∧
      generalPin cfg = .ok m.pin ∧ generalPout cfg = .ok m.pout := by
  refine ⟨generalSectionOf m :: m.devices.map deviceSection,
    saveConfig_shape m ha hg hi, ?_, ?_, ?_, rfl, rfl, ?_, ?_⟩
  · have hskip : loadList (freshMaster m.pin m.pout m.user m.password)
        (generalSectionOf m :: m.devices.map deviceSection) =
        loadList (freshMaster m.pin m.pout m.user m.password)
          (m.devices.map deviceSection) := rfl
    rw [hskip, loadList_device_sections m.devices
      (freshMaster m.pin m.pout m.user m.password)
      (by intro d hd hm; cases hm) hg ha]
    rfl
  · exact reload_tuples m.devices
  · intro d hd p hp
    rcases List.mem_map.mp hd with ⟨d0, hd0, rfl⟩
    have hp2 : p ∈ d0.plugs.map (fun q => (⟨q.index, q.name, PState.Unknown⟩ : Plug)) := hp
    rcases List.mem_map.mp hp2 with ⟨p0, hp0, rfl⟩
    rfl
  · show (match pyIntDigits (natStr m.pin).data with
      | some n => Except.ok n
      | none => Except.error "ValueError: invalid literal for int") = Except.ok m.pin
    rw [show (natStr m.pin).data = natDigits m.pin from rfl, pyIntDigits_natDigits]
  · show (match pyIntDigits (natStr m.pout).data with
      | some n => Except.ok n
      | none => Except.error "ValueError: invalid literal for int") = Except.ok m.pout
    rw [show (natStr m.pout).data = natDigits m.pout from rfl, pyIntDigits_natDigits]

/-- Counterexample to C1 as stated: the registry whose single plugless
device has the (unique) address `GENERAL` satisfies the stated
uniqueness requirements, yet saving it yields a duplicate-section error
and no configuration at all, so no reload can reproduce its data. -/
theorem claim1_counterexample :
    (([⟨"GENERAL", "X", []⟩] : List Device).map (fun d => d.address)).Nodup ∧
    (([] : List Plug).map (fun p => p.index)).Nodup ∧
    saveConfig ⟨"u2", "p2", 10, 11, [⟨"GENERAL", "X", []⟩]⟩ =
      .error "DuplicateSectionError: GENERAL" :=
  ⟨by decide, by decide, rfl⟩

/-- Witness for the amended C1 at the concrete two-plug registry of the
specification scenario (plug states On and Off before saving). -/
theorem claim1_round_trip_amended_witness :
    ∃ cfg,
      saveConfig ⟨"u", "pw", 80, 81,
        [⟨"192.168.1.50", "Strip1",
          [⟨1, "Lamp", PState.On⟩, ⟨2, "Fan", PState.Off⟩]⟩]⟩ = .ok cfg ∧
      loadList (freshMaster 80 81 "u" "pw") cfg =
        .ok (⟨"u", "pw", 80, 81,
          [⟨"192.168.1.50", "Strip1",
            [⟨1, "Lamp", PState.Unknown⟩, ⟨2, "Fan", PState.Unknown⟩]⟩]⟩, []) ∧
      generalPin cfg = .ok 80 := by
  obtain ⟨cfg, h1, h2, h3, h4, h5, h6, h7, h8⟩ :=
    claim1_round_trip_amended
      ⟨"u", "pw", 80, 81,
        [⟨"192.168.1.50", "Strip1",
          [⟨1, "Lamp", PState.On⟩, ⟨2, "Fan", PState.Off⟩]⟩]⟩
      (by decide) (by decide) (by decide)
  exact ⟨cfg, h1, h2, h7⟩

end Pypwrctrl

